import Mathlib

/-!
Shallow embedding of `src/brew.py` (a dotbot plugin that drives the Homebrew
package manager).  Subprocess execution is modelled by an oracle
`Exec : String → Bool` giving the success (exit status 0) of each executed
shell string; every other aspect of the plugin (command-string construction,
exception flow, logging, short-circuiting) is translated directly from the
source.  The exit code carried by a Python `CalledProcessError` is outside
the model, so the interpolated exception text keeps only the command string.
-/

set_option autoImplicit false
set_option maxRecDepth 100000

namespace DotbotBrew

/-- The platform context, fixed at class-definition time in the source
(`platform.sys.platform` and `platform.machine()`, src/brew.py lines 15-22).
Only the two platforms the source handles are representable. -/
inductive Platform where
  | darwin (arm64 : Bool)
  | linux
deriving DecidableEq, Repr

/-- Model of `_is_macos`, src/brew.py lines 16 and 21. -/
def _is_macos : Platform → Bool
  | .darwin _ => true
  | .linux => false

/-- Model of `_homebrew_path`, src/brew.py lines 17-22. -/
def _homebrew_path : Platform → String
  | .darwin arm64 => if arm64 then "/opt/homebrew" else "/usr/local"
  | .linux => "/home/linuxbrew/.linuxbrew"

/-- Model of `_brew_directive`, src/brew.py line 7. -/
def _brew_directive : String := "brew"

/-- Model of `_brewfile_directive`, src/brew.py line 8. -/
def _brewfile_directive : String := "brewfile"

/-- Model of `_cask_directive`, src/brew.py line 9. -/
def _cask_directive : String := "cask"

/-- Model of `_tap_directive`, src/brew.py line 10. -/
def _tap_directive : String := "tap"

/-- Model of `_install_url`, src/brew.py line 11. -/
def _install_url : String :=
  "https://raw.githubusercontent.com/Homebrew/install/HEAD/install.sh"

/-- Model of `_homebrew_envs`, src/brew.py lines 25-32: the class-level dict, modelled
as the (insertion-ordered) association list of its entries. -/
def _homebrew_envs (p : Platform) : List (String × String) :=
  let hp := _homebrew_path p
  [("HOMEBREW_PREFIX", hp),
   ("HOMEBREW_CELLAR", hp ++ "/Cellar"),
   ("HOMEBREW_REPOSITORY", hp),
   ("PATH", hp ++ "/bin:" ++ hp ++ "/sbin$\x7bPATH+:$PATH\x7d"),
   ("MANPATH", hp ++ "/share/man$\x7bMANPATH+:$MANPATH\x7d:"),
   ("INFOPATH", hp ++ "/share/info:$\x7bINFOPATH:-\x7d")]

/-- Python `str()` of a `dict` whose keys and values are plain strings:
`\x7b'k1': 'v1', 'k2': 'v2'\x7d`.  This is what the f-string in `_run_cmd`
(src/brew.py line 71) interpolates for `self._homebrew_envs`. -/
def dict_repr (l : List (String × String)) : String :=
  "\x7b" ++
    String.intercalate ", "
      (l.map (fun kv => "\x27" ++ kv.1 ++ "\x27: \x27" ++ kv.2 ++ "\x27")) ++
  "\x7d"

/-- The shell string `_run_cmd` executes, src/brew.py lines 69-71:
`f'eval "$(\x7bself._homebrew_envs\x7d)" && \x7bcmd\x7d'` when `include_envs`,
otherwise `cmd` unchanged. -/
def cmd_string (p : Platform) (cmd : String) (include_envs : Bool) : String :=
  if include_envs then
    "eval \"$(" ++ dict_repr (_homebrew_envs p) ++ ")\" && " ++ cmd
  else
    cmd

/-- The shell commands the plugin can pass to `_run_cmd`, one constructor per
call site, carrying the interpolated pieces of the corresponding f-string. -/
inductive Cmd where
  /-- Literal `hash brew`, src/brew.py line 51. -/
  | hashBrew
  /-- Literal `brew tap homebrew/cask`, src/brew.py line 57. -/
  | tapCask
  /-- The f-string `brew tap \x7btap\x7d`, src/brew.py line 99. -/
  | tap (name : String)
  /-- The f-string `brew ls --versions \x7bcask_flag\x7d \x7bpackage\x7d`, src/brew.py line 118. -/
  | lsVersions (cask_flag : String) (package : String)
  /-- The f-string `\x7binstall_cmd\x7d \x7bcask_flag\x7d \x7bpackage\x7d`, src/brew.py line 122. -/
  | installPkg (install_cmd : String) (cask_flag : String) (package : String)
  /-- The f-string `brew bundle --file=\x7bbrew_file\x7d`, src/brew.py line 132. -/
  | bundle (file : String)
  /-- The f-string `/bin/bash -c "$(curl -fsSL \x7bself._install_url\x7d)"`, src/brew.py line 84. -/
  | installScript
  /-- Literal `brew update`, src/brew.py line 91. -/
  | update
deriving DecidableEq, Repr

/-- The string each call site passes to `_run_cmd` (before env prefixing). -/
def Cmd.shell : Cmd → String
  | .hashBrew => "hash brew"
  | .tapCask => "brew tap homebrew/cask"
  | .tap name => "brew tap " ++ name
  | .lsVersions cask_flag package => "brew ls --versions " ++ cask_flag ++ " " ++ package
  | .installPkg install_cmd cask_flag package =>
      install_cmd ++ " " ++ cask_flag ++ " " ++ package
  | .bundle file => "brew bundle --file=" ++ file
  | .installScript => "/bin/bash -c \"$(curl -fsSL " ++ _install_url ++ ")\""
  | .update => "brew update"

/-- The `include_envs` argument at each call site: every call uses the default
`True` except the bootstrap install script (src/brew.py line 84,
`include_envs=False`). -/
def Cmd.envs : Cmd → Bool
  | .installScript => false
  | _ => true

/-- The full shell string actually executed for a command. -/
def Cmd.exec_str (p : Platform) (c : Cmd) : String :=
  cmd_string p c.shell c.envs

/-- Oracle for subprocess execution: the success (exit status 0) of each
executed shell string.  `subprocess.run(..., check=True)` raises
`CalledProcessError` exactly when this is `false`. -/
abbrev Exec := String → Bool

/-- Whether the subprocess for command `c` exits with status 0. -/
def runs (p : Platform) (ex : Exec) (c : Cmd) : Bool :=
  ex (c.exec_str p)

/-- Log levels of the dotbot logging interface used by the plugin. -/
inductive LogLevel where
  | info
  | lowinfo
  | warning
  | error
deriving DecidableEq, Repr

/-- One emitted log line. -/
structure LogEntry where
  level : LogLevel
  msg : String
deriving DecidableEq, Repr

/-- Text of a `CalledProcessError` interpolated via `\x7be\x7d`; the numeric
exit code is outside the model, so only the command string is kept. -/
def cpe_msg (full : String) : String :=
  "Command \x27" ++ full ++ "\x27 returned non-zero exit status."

/-- The observable side effects of a call: executed commands (in order) and
emitted log lines (in order). -/
structure Eff where
  cmds : List Cmd
  log : List LogEntry
deriving DecidableEq, Repr

def Eff.nil : Eff := ⟨[], []⟩

def Eff.app (a b : Eff) : Eff := ⟨a.cmds ++ b.cmds, a.log ++ b.log⟩

/-- A bare log line as an effect. -/
def logE (level : LogLevel) (msg : String) : Eff := ⟨[], [⟨level, msg⟩]⟩

/-- Model of `_run_cmd`, src/brew.py lines 69-79: builds the shell string, logs it at
`lowinfo`, executes it; the `Bool` is the exit status (`false` means the
`check=True` call raised `CalledProcessError` at this call site).
`capture_output` only affects where the subprocess output goes and is not
observable in the model. -/
def run_shell (p : Platform) (ex : Exec) (c : Cmd) : Eff × Bool :=
  (⟨[c], [⟨.lowinfo, c.exec_str p⟩]⟩, runs p ex c)

/-- Model of `can_handle`, src/brew.py lines 34-44. -/
def can_handle (p : Platform) (directive : String) : Bool :=
  let directives := [_tap_directive, _brew_directive, _brewfile_directive]
  let directives := if _is_macos p then directives ++ [_cask_directive] else directives
  directives.contains directive

/-- Model of `_tap`, src/brew.py lines 95-103. -/
def _tap (p : Platform) (ex : Exec) : List String → Eff × Bool
  | [] => (Eff.nil, true)
  | t :: rest =>
    let e0 := logE .info ("Tapping " ++ t)
    let (e1, ok) := run_shell p ex (.tap t)
    if ok then
      let (e2, b) := _tap p ex rest
      (e0.app (e1.app e2), b)
    else
      (e0.app (e1.app (logE .warning
        ("Failed to tap [" ++ t ++ "] - " ++ cpe_msg ((Cmd.tap t).exec_str p)))), false)

/-- Model of `cask_flag` as computed at src/brew.py line 115. -/
def cask_flag_of (install_cmd : String) : String :=
  if install_cmd != "brew install" then "--cask" else ""

/-- The loop body of `_install`, src/brew.py lines 116-126, with the
pre-computed `cask_flag` passed in. -/
def _install_loop (p : Platform) (ex : Exec) (install_cmd cask_flag : String) :
    List String → Eff × Bool
  | [] => (Eff.nil, true)
  | package :: rest =>
    let (e1, okLs) := run_shell p ex (.lsVersions cask_flag package)
    if okLs then
      let (e2, b) := _install_loop p ex install_cmd cask_flag rest
      (e1.app e2, b)
    else
      let e2 := logE .info ("Installing " ++ package)
      let (e3, okIn) := run_shell p ex (.installPkg install_cmd cask_flag package)
      if okIn then
        let (e4, b) := _install_loop p ex install_cmd cask_flag rest
        (e1.app (e2.app (e3.app e4)), b)
      else
        (e1.app (e2.app (e3.app (logE .warning
          ("Failed to install [" ++ package ++ "] - " ++
            cpe_msg ((Cmd.installPkg install_cmd cask_flag package).exec_str p))))), false)

/-- Model of `_install`, src/brew.py lines 114-126. -/
def _install (p : Platform) (ex : Exec) (install_cmd : String)
    (packages_list : List String) : Eff × Bool :=
  _install_loop p ex install_cmd (cask_flag_of install_cmd) packages_list

/-- Python `"--cask" in install_cmd` (substring test), src/brew.py line 106. -/
def contains_cask (s : String) : Bool :=
  (s.splitOn "--cask").length != 1

/-- Model of `_process_data`, src/brew.py lines 105-112. -/
def _process_data (p : Platform) (ex : Exec) (install_cmd : String)
    (data : List String) : Eff × Bool :=
  let install_type := if contains_cask install_cmd then "casks" else "formulae"
  let (e1, success) := _install p ex install_cmd data
  if success then
    (e1.app (logE .info ("All brew " ++ install_type ++ " have been installed")), success)
  else
    (e1.app (logE .error ("Some brew " ++ install_type ++ " were not installed")), success)

/-- Model of `_install_bundle`, src/brew.py lines 128-136. -/
def _install_bundle (p : Platform) (ex : Exec) : List String → Eff × Bool
  | [] => (Eff.nil, true)
  | brew_file :: rest =>
    let e0 := logE .info ("Installing from file " ++ brew_file)
    let (e1, ok) := run_shell p ex (.bundle brew_file)
    if ok then
      let (e2, b) := _install_bundle p ex rest
      (e0.app (e1.app e2), b)
    else
      (e0.app (e1.app (logE .warning
        ("Failed to install file [" ++ brew_file ++ "] - " ++
          cpe_msg ((Cmd.bundle brew_file).exec_str p)))), false)

/-- Model of `_bootstrap_brew`, src/brew.py lines 81-93.  Both of its subprocess calls
are wrapped in try/except, so it produces effects only and can never raise:
its return type carries no error case. -/
def _bootstrap_brew (p : Platform) (ex : Exec) : Eff :=
  let (e1, ok1) := run_shell p ex .installScript
  if ok1 then
    let e2 := logE .info "Updating brew"
    let (e3, ok2) := run_shell p ex .update
    if ok2 then
      e1.app (e2.app e3)
    else
      e1.app (e2.app (e3.app (logE .warning "Brew could not be updated")))
  else
    e1.app (logE .warning "Brew could not be installed")

/-- The errors `handle` can let escape: the explicit `ValueError` of
src/brew.py line 48, and an uncaught `subprocess.CalledProcessError`
(carrying the executed shell string). -/
inductive HandleErr where
  | valueError (msg : String)
  | calledProcessError (cmd : String)
deriving DecidableEq, Repr

/-- The `match` on the directive, src/brew.py lines 59-67.  A directive
matching no case makes the Python method return `None`, modelled as `none`. -/
def dispatch (p : Platform) (ex : Exec) (directive : String)
    (data : List String) : Eff × Option Bool :=
  if directive == _tap_directive then
    let (e, b) := _tap p ex data
    (e, some b)
  else if directive == _brew_directive then
    let (e, b) := _process_data p ex "brew install" data
    (e, some b)
  else if directive == _cask_directive then
    let (e, b) := _process_data p ex "brew install --cask" data
    (e, some b)
  else if directive == _brewfile_directive then
    let (e, b) := _install_bundle p ex data
    (e, some b)
  else
    (Eff.nil, none)

/-- src/brew.py lines 56-67: the part of `handle` after the bootstrap check.
The `brew tap homebrew/cask` call on macOS is NOT wrapped in try/except, so
its failure escapes as a raw `CalledProcessError`. -/
def post_check (p : Platform) (ex : Exec) (directive : String)
    (data : List String) : Eff × Except HandleErr (Option Bool) :=
  if _is_macos p then
    let (e1, ok1) := run_shell p ex .tapCask
    if ok1 then
      let (e2, r) := dispatch p ex directive data
      (e1.app e2, .ok r)
    else
      (e1, .error (.calledProcessError (Cmd.tapCask.exec_str p)))
  else
    let (e, r) := dispatch p ex directive data
    (e, .ok r)

/-- Model of `handle`, src/brew.py lines 46-67. -/
def handle (p : Platform) (ex : Exec) (directive : String)
    (data : List String) : Eff × Except HandleErr (Option Bool) :=
  if can_handle p directive then
    let (e1, okHash) := run_shell p ex .hashBrew
    let eboot :=
      if okHash then Eff.nil
      else (logE .info "Brew not found, installing").app (_bootstrap_brew p ex)
    let (e2, r) := post_check p ex directive data
    (e1.app (eboot.app e2), r)
  else
    (Eff.nil, .error (.valueError ("Brew cannot handle directive " ++ directive)))

/-- Oracle under which every subprocess fails. -/
def ex_none : Exec := fun _ => false

/-- Oracle under which every subprocess succeeds. -/
def ex_all : Exec := fun _ => true

/-- Oracle failing exactly the (Intel macOS) `brew tap homebrew/cask` step. -/
def ex_no_tapcask : Exec := fun s => !(s == Cmd.tapCask.exec_str (.darwin false))

/-- Oracle succeeding exactly on the Linux `brew tap a` invocation. -/
def ex_tap_a : Exec := fun s => s == (Cmd.tap "a").exec_str .linux

/-- The two log lines a successful `brew tap` iteration emits. -/
def tap_item_log (p : Platform) (t : String) : List LogEntry :=
  [⟨.info, "Tapping " ++ t⟩, ⟨.lowinfo, (Cmd.tap t).exec_str p⟩]

/-- The warning `_tap` logs when tapping `t` fails. -/
def tap_fail_log (p : Platform) (t : String) : LogEntry :=
  ⟨.warning, "Failed to tap [" ++ t ++ "] - " ++ cpe_msg ((Cmd.tap t).exec_str p)⟩

/-- The log lines a successful `brew bundle` iteration emits. -/
def bundle_item_log (p : Platform) (f : String) : List LogEntry :=
  [⟨.info, "Installing from file " ++ f⟩, ⟨.lowinfo, (Cmd.bundle f).exec_str p⟩]

/-- The warning `_install_bundle` logs when a bundle file fails. -/
def bundle_fail_log (p : Platform) (f : String) : LogEntry :=
  ⟨.warning, "Failed to install file [" ++ f ++ "] - " ++ cpe_msg ((Cmd.bundle f).exec_str p)⟩

/-- Whether an `_install` iteration for package `q` succeeds: either the
version query exits 0 (already installed) or the install command does. -/
def install_item_ok (p : Platform) (ex : Exec) (install_cmd cask_flag q : String) : Bool :=
  runs p ex (.lsVersions cask_flag q) || runs p ex (.installPkg install_cmd cask_flag q)

/-- The commands a successful `_install` iteration for `q` executes. -/
def install_item_cmds (p : Platform) (ex : Exec) (install_cmd cask_flag q : String) :
    List Cmd :=
  if runs p ex (.lsVersions cask_flag q) then [.lsVersions cask_flag q]
  else [.lsVersions cask_flag q, .installPkg install_cmd cask_flag q]

/-- The log lines a successful `_install` iteration for `q` emits. -/
def install_item_log (p : Platform) (ex : Exec) (install_cmd cask_flag q : String) :
    List LogEntry :=
  if runs p ex (.lsVersions cask_flag q) then
    [⟨.lowinfo, (Cmd.lsVersions cask_flag q).exec_str p⟩]
  else
    [⟨.lowinfo, (Cmd.lsVersions cask_flag q).exec_str p⟩, ⟨.info, "Installing " ++ q⟩,
      ⟨.lowinfo, (Cmd.installPkg install_cmd cask_flag q).exec_str p⟩]

/-- The warning `_install` logs when installing `q` fails. -/
def install_fail_log (p : Platform) (install_cmd cask_flag q : String) : LogEntry :=
  ⟨.warning, "Failed to install [" ++ q ++ "] - " ++
    cpe_msg ((Cmd.installPkg install_cmd cask_flag q).exec_str p)⟩

lemma can_handle_iff (p : Platform) (d : String) :
    can_handle p d = true ↔
      (d = _tap_directive ∨ d = _brew_directive ∨ d = _brewfile_directive ∨
        (_is_macos p = true ∧ d = _cask_directive)) := by
  cases p <;>
    simp [can_handle, _is_macos, _tap_directive, _brew_directive, _brewfile_directive,
      _cask_directive, List.contains, or_assoc]

lemma tap_nil (p : Platform) (ex : Exec) : _tap p ex [] = (Eff.nil, true) := rfl

lemma tap_cons_ok (p : Platform) (ex : Exec) (t : String) (rest : List String)
    (h : runs p ex (.tap t) = true) :
    _tap p ex (t :: rest) =
      ((⟨[Cmd.tap t], tap_item_log p t⟩ : Eff).app (_tap p ex rest).1, (_tap p ex rest).2) := by
  simp [_tap, run_shell, h, Eff.app, logE, tap_item_log]

lemma tap_cons_fail (p : Platform) (ex : Exec) (t : String) (rest : List String)
    (h : runs p ex (.tap t) = false) :
    _tap p ex (t :: rest) =
      (⟨[Cmd.tap t], tap_item_log p t ++ [tap_fail_log p t]⟩, false) := by
  simp [_tap, run_shell, h, Eff.app, logE, tap_item_log, tap_fail_log]

lemma tap_all_ok (p : Platform) (ex : Exec) (l : List String)
    (h : ∀ t ∈ l, runs p ex (.tap t) = true) :
    _tap p ex l = (⟨l.map Cmd.tap, (l.map (tap_item_log p)).flatten⟩, true) := by
  induction l with
  | nil => simp [tap_nil, Eff.nil]
  | cons t rest ih =>
    rw [tap_cons_ok p ex t rest (h t (by simp)), ih (fun u hu => h u (by simp [hu]))]
    simp [Eff.app]

lemma tap_fail (p : Platform) (ex : Exec) (pre : List String) (x : String)
    (post : List String) (hpre : ∀ t ∈ pre, runs p ex (.tap t) = true)
    (hx : runs p ex (.tap x) = false) :
    _tap p ex (pre ++ x :: post) =
      (⟨pre.map Cmd.tap ++ [Cmd.tap x],
        (pre.map (tap_item_log p)).flatten ++ tap_item_log p x ++ [tap_fail_log p x]⟩, false) := by
  induction pre with
  | nil => simp [tap_cons_fail p ex x post hx]
  | cons t rest ih =>
    rw [List.cons_append, tap_cons_ok p ex t _ (hpre t (by simp)),
      ih (fun u hu => hpre u (by simp [hu]))]
    simp [Eff.app]

lemma bundle_nil (p : Platform) (ex : Exec) : _install_bundle p ex [] = (Eff.nil, true) := rfl

lemma bundle_cons_ok (p : Platform) (ex : Exec) (f : String) (rest : List String)
    (h : runs p ex (.bundle f) = true) :
    _install_bundle p ex (f :: rest) =
      ((⟨[Cmd.bundle f], bundle_item_log p f⟩ : Eff).app (_install_bundle p ex rest).1,
        (_install_bundle p ex rest).2) := by
  simp [_install_bundle, run_shell, h, Eff.app, logE, bundle_item_log]

lemma bundle_cons_fail (p : Platform) (ex : Exec) (f : String) (rest : List String)
    (h : runs p ex (.bundle f) = false) :
    _install_bundle p ex (f :: rest) =
      (⟨[Cmd.bundle f], bundle_item_log p f ++ [bundle_fail_log p f]⟩, false) := by
  simp [_install_bundle, run_shell, h, Eff.app, logE, bundle_item_log, bundle_fail_log]

lemma bundle_all_ok (p : Platform) (ex : Exec) (l : List String)
    (h : ∀ f ∈ l, runs p ex (.bundle f) = true) :
    _install_bundle p ex l = (⟨l.map Cmd.bundle, (l.map (bundle_item_log p)).flatten⟩, true) := by
  induction l with
  | nil => simp [bundle_nil, Eff.nil]
  | cons f rest ih =>
    rw [bundle_cons_ok p ex f rest (h f (by simp)), ih (fun u hu => h u (by simp [hu]))]
    simp [Eff.app]

lemma bundle_fail (p : Platform) (ex : Exec) (pre : List String) (x : String)
    (post : List String) (hpre : ∀ f ∈ pre, runs p ex (.bundle f) = true)
    (hx : runs p ex (.bundle x) = false) :
    _install_bundle p ex (pre ++ x :: post) =
      (⟨pre.map Cmd.bundle ++ [Cmd.bundle x],
        (pre.map (bundle_item_log p)).flatten ++ bundle_item_log p x ++
          [bundle_fail_log p x]⟩, false) := by
  induction pre with
  | nil => simp [bundle_cons_fail p ex x post hx]
  | cons f rest ih =>
    rw [List.cons_append, bundle_cons_ok p ex f _ (hpre f (by simp)),
      ih (fun u hu => hpre u (by simp [hu]))]
    simp [Eff.app]

lemma install_loop_nil (p : Platform) (ex : Exec) (ic cf : String) :
    _install_loop p ex ic cf [] = (Eff.nil, true) := rfl

lemma install_loop_cons_skip (p : Platform) (ex : Exec) (ic cf q : String)
    (rest : List String) (h : runs p ex (.lsVersions cf q) = true) :
    _install_loop p ex ic cf (q :: rest) =
      ((⟨[Cmd.lsVersions cf q], [⟨.lowinfo, (Cmd.lsVersions cf q).exec_str p⟩]⟩ : Eff).app
          (_install_loop p ex ic cf rest).1,
        (_install_loop p ex ic cf rest).2) := by
  simp [_install_loop, run_shell, h, Eff.app, logE]

lemma install_loop_cons_ok (p : Platform) (ex : Exec) (ic cf q : String)
    (rest : List String) (h : runs p ex (.lsVersions cf q) = false)
    (h2 : runs p ex (.installPkg ic cf q) = true) :
    _install_loop p ex ic cf (q :: rest) =
      ((⟨[Cmd.lsVersions cf q, Cmd.installPkg ic cf q],
          install_item_log p ex ic cf q⟩ : Eff).app (_install_loop p ex ic cf rest).1,
        (_install_loop p ex ic cf rest).2) := by
  simp [_install_loop, run_shell, h, h2, Eff.app, logE, install_item_log]

lemma install_loop_cons_fail (p : Platform) (ex : Exec) (ic cf q : String)
    (rest : List String) (h : runs p ex (.lsVersions cf q) = false)
    (h2 : runs p ex (.installPkg ic cf q) = false) :
    _install_loop p ex ic cf (q :: rest) =
      (⟨[Cmd.lsVersions cf q, Cmd.installPkg ic cf q],
        install_item_log p ex ic cf q ++ [install_fail_log p ic cf q]⟩, false) := by
  simp [_install_loop, run_shell, h, h2, Eff.app, logE, install_item_log, install_fail_log]

lemma install_loop_all_ok (p : Platform) (ex : Exec) (ic cf : String) (l : List String)
    (h : ∀ q ∈ l, install_item_ok p ex ic cf q = true) :
    _install_loop p ex ic cf l =
      (⟨(l.map (install_item_cmds p ex ic cf)).flatten,
        (l.map (install_item_log p ex ic cf)).flatten⟩, true) := by
  induction l with
  | nil => simp [install_loop_nil, Eff.nil]
  | cons q rest ih =>
    have hrest : ∀ u ∈ rest, install_item_ok p ex ic cf u = true :=
      fun u hu => h u (by simp [hu])
    rcases hls : runs p ex (.lsVersions cf q) with hv | hv
    · have hin : runs p ex (.installPkg ic cf q) = true := by
        have := h q (by simp)
        simpa [install_item_ok, hls] using this
      rw [install_loop_cons_ok p ex ic cf q rest hls hin, ih hrest]
      simp [Eff.app, install_item_cmds, install_item_log, hls]
    · rw [install_loop_cons_skip p ex ic cf q rest hls, ih hrest]
      simp [Eff.app, install_item_cmds, install_item_log, hls]

lemma install_loop_fail (p : Platform) (ex : Exec) (ic cf : String) (pre : List String)
    (x : String) (post : List String)
    (hpre : ∀ q ∈ pre, install_item_ok p ex ic cf q = true)
    (hx1 : runs p ex (.lsVersions cf x) = false)
    (hx2 : runs p ex (.installPkg ic cf x) = false) :
    _install_loop p ex ic cf (pre ++ x :: post) =
      (⟨(pre.map (install_item_cmds p ex ic cf)).flatten ++
          [Cmd.lsVersions cf x, Cmd.installPkg ic cf x],
        (pre.map (install_item_log p ex ic cf)).flatten ++ install_item_log p ex ic cf x ++
          [install_fail_log p ic cf x]⟩, false) := by
  induction pre with
  | nil => simp [install_loop_cons_fail p ex ic cf x post hx1 hx2]
  | cons q rest ih =>
    have hrest : ∀ u ∈ rest, install_item_ok p ex ic cf u = true :=
      fun u hu => hpre u (by simp [hu])
    rcases hls : runs p ex (.lsVersions cf q) with hv | hv
    · have hin : runs p ex (.installPkg ic cf q) = true := by
        have := hpre q (by simp)
        simpa [install_item_ok, hls] using this
      rw [List.cons_append, install_loop_cons_ok p ex ic cf q _ hls hin, ih hrest]
      simp [Eff.app, install_item_cmds, install_item_log, hls]
    · rw [List.cons_append, install_loop_cons_skip p ex ic cf q _ hls, ih hrest]
      simp [Eff.app, install_item_cmds, install_item_log, hls]

lemma install_loop_not_mem (p : Platform) (ex : Exec) (ic cf pkg : String)
    (l : List String) (h : runs p ex (.lsVersions cf pkg) = true) :
    Cmd.installPkg ic cf pkg ∉ (_install_loop p ex ic cf l).1.cmds := by
  induction l with
  | nil => simp [install_loop_nil, Eff.nil]
  | cons q rest ih =>
    rcases hls : runs p ex (.lsVersions cf q) with hv | hv
    · have hq : pkg ≠ q := by
        intro he
        rw [he] at h
        rw [h] at hls
        cases hls
      rcases hin : runs p ex (.installPkg ic cf q) with hw | hw
      · rw [install_loop_cons_fail p ex ic cf q rest hls hin]
        simp [hq]
      · rw [install_loop_cons_ok p ex ic cf q rest hls hin]
        simp only [Eff.app, List.mem_append, List.mem_cons, List.not_mem_nil]
        push_neg
        refine ⟨⟨by simp, by simp [hq], by simp⟩, ?_⟩
        exact fun hmem => ih hmem
    · rw [install_loop_cons_skip p ex ic cf q rest hls]
      simp only [Eff.app, List.mem_append, List.mem_cons, List.not_mem_nil]
      push_neg
      exact ⟨⟨by simp, by simp⟩, fun hmem => ih hmem⟩

lemma bootstrap_fail (p : Platform) (ex : Exec)
    (h : runs p ex .installScript = false) :
    _bootstrap_brew p ex =
      ⟨[.installScript],
        [⟨.lowinfo, Cmd.installScript.exec_str p⟩,
          ⟨.warning, "Brew could not be installed"⟩]⟩ := by
  simp [_bootstrap_brew, run_shell, h, Eff.app, logE]

lemma bootstrap_ok (p : Platform) (ex : Exec)
    (h : runs p ex .installScript = true) :
    _bootstrap_brew p ex =
      ⟨[.installScript, .update],
        [⟨.lowinfo, Cmd.installScript.exec_str p⟩, ⟨.info, "Updating brew"⟩,
          ⟨.lowinfo, Cmd.update.exec_str p⟩] ++
          (if runs p ex .update then [] else [⟨.warning, "Brew could not be updated"⟩])⟩ := by
  rcases hu : runs p ex .update with hv | hv <;>
    simp [_bootstrap_brew, run_shell, h, hu, Eff.app, logE]

lemma bootstrap_cmds (p : Platform) (ex : Exec) :
    (_bootstrap_brew p ex).cmds =
      if runs p ex .installScript then [.installScript, .update] else [.installScript] := by
  rcases h : runs p ex .installScript with hv | hv
  · simp [bootstrap_fail p ex h]
  · simp [bootstrap_ok p ex h]

lemma dispatch_result (p : Platform) (ex : Exec) (d : String) (data : List String) :
    (dispatch p ex d data).2 =
      if d == _tap_directive then some (_tap p ex data).2
      else if d == _brew_directive then some (_install p ex "brew install" data).2
      else if d == _cask_directive then some (_install p ex "brew install --cask" data).2
      else if d == _brewfile_directive then some (_install_bundle p ex data).2
      else none := by
  simp only [dispatch, _process_data]
  repeat' split
  all_goals rfl

lemma handle_unsupported (p : Platform) (ex : Exec) (d : String) (data : List String)
    (h : can_handle p d = false) :
    handle p ex d data =
      (Eff.nil, .error (.valueError ("Brew cannot handle directive " ++ d))) := by
  simp [handle, h]

lemma handle_supported (p : Platform) (ex : Exec) (d : String) (data : List String)
    (h : can_handle p d = true) :
    handle p ex d data =
      ((run_shell p ex .hashBrew).1.app
        ((if runs p ex .hashBrew then Eff.nil
          else (logE .info "Brew not found, installing").app (_bootstrap_brew p ex)).app
          (post_check p ex d data).1),
        (post_check p ex d data).2) := by
  simp only [handle, h, if_pos, run_shell]

lemma post_check_macos_fail (p : Platform) (ex : Exec) (d : String) (data : List String)
    (hm : _is_macos p = true) (ht : runs p ex .tapCask = false) :
    post_check p ex d data =
      ((run_shell p ex .tapCask).1,
        .error (.calledProcessError (Cmd.tapCask.exec_str p))) := by
  simp [post_check, hm, run_shell, ht]

lemma post_check_macos_ok (p : Platform) (ex : Exec) (d : String) (data : List String)
    (hm : _is_macos p = true) (ht : runs p ex .tapCask = true) :
    post_check p ex d data =
      ((run_shell p ex .tapCask).1.app (dispatch p ex d data).1,
        .ok (dispatch p ex d data).2) := by
  simp [post_check, hm, run_shell, ht]

lemma post_check_linux (p : Platform) (ex : Exec) (d : String) (data : List String)
    (hm : _is_macos p = false) :
    post_check p ex d data = ((dispatch p ex d data).1, .ok (dispatch p ex d data).2) := by
  simp [post_check, hm]

lemma post_check_error_iff (p : Platform) (ex : Exec) (d : String) (data : List String)
    (e : HandleErr) :
    (post_check p ex d data).2 = .error e ↔
      (_is_macos p = true ∧ runs p ex .tapCask = false ∧
        e = .calledProcessError (Cmd.tapCask.exec_str p)) := by
  rcases hm : _is_macos p with hv | hv
  · simp [post_check_linux p ex d data hm]
  · rcases ht : runs p ex .tapCask with hw | hw
    · simp [post_check_macos_fail p ex d data hm ht]
      aesop
    · simp [post_check_macos_ok p ex d data hm ht]

lemma handle_error_iff (p : Platform) (ex : Exec) (d : String) (data : List String)
    (e : HandleErr) (h : can_handle p d = true) :
    (handle p ex d data).2 = .error e ↔
      (_is_macos p = true ∧ runs p ex .tapCask = false ∧
        e = .calledProcessError (Cmd.tapCask.exec_str p)) := by
  rw [handle_supported p ex d data h]
  simpa using post_check_error_iff p ex d data e

/-- C1 (amended): with a supported directive, `handle` lets a raw subprocess
failure escape in exactly one case: on macOS, the unguarded preliminary
`brew tap homebrew/cask` registration step; every other subprocess failure is
caught at its call site and never escapes `handle`. -/
theorem C1_raw_error_only_tapcask (p : Platform) (ex : Exec) (d : String)
    (data : List String) (e : HandleErr) (h : can_handle p d = true) :
    (handle p ex d data).2 = .error e ↔
      (_is_macos p = true ∧ runs p ex .tapCask = false ∧
        e = .calledProcessError (Cmd.tapCask.exec_str p)) :=
  handle_error_iff p ex d data e h

/-- C1 counterexample: on macOS, when `brew tap homebrew/cask` exits non-zero
(and every other subprocess succeeds), `handle "brew" []` propagates the
`CalledProcessError` instead of turning it into a warning and `false`. -/
theorem C1_counterexample :
    (handle (.darwin false) ex_no_tapcask "brew" []).2 =
      .error (.calledProcessError (Cmd.tapCask.exec_str (.darwin false))) := rfl

/-- C1 witness: the amended theorem applied at a concrete macOS input. -/
theorem C1_witness :
    can_handle (.darwin false) "brew" = true ∧
      (handle (.darwin false) ex_no_tapcask "brew" ["git"]).2 =
        .error (.calledProcessError (Cmd.tapCask.exec_str (.darwin false))) :=
  ⟨by decide,
    (C1_raw_error_only_tapcask (.darwin false) ex_no_tapcask "brew" ["git"] _
      (by decide)).mpr ⟨rfl, rfl, rfl⟩⟩

/-- C2 counterexample: under the cask directive with package `p` absent, the
install command actually issued is `brew install --cask --cask p` (the flag
appears twice), not `brew install --cask p`. -/
theorem C2_counterexample :
    ((_install (.darwin false) ex_none "brew install --cask" ["p"]).1.cmds.map Cmd.shell =
        ["brew ls --versions --cask p", "brew install --cask --cask p"]) ∧
      ("brew install --cask --cask p" : String) ≠ "brew install --cask p" := by
  exact ⟨rfl, by decide⟩

/-- C2 (amended): under the cask directive the version query issued is exactly
`brew ls --versions --cask <pkg>`, but the install command issued when the
package is absent is `brew install --cask --cask <pkg>` (`cask_flag` is
appended to an `install_cmd` that already carries `--cask`); under the formula
directive the commands are `brew ls --versions  <pkg>` and
`brew install  <pkg>` (empty flag slot, leaving two spaces). -/
theorem C2_issued_commands (package : String) (p : Platform) (ex : Exec)
    (rest : List String) :
    (Cmd.lsVersions (cask_flag_of "brew install --cask") package).shell =
        "brew ls --versions --cask " ++ package ∧
      (Cmd.installPkg "brew install --cask" (cask_flag_of "brew install --cask")
          package).shell = "brew install --cask --cask " ++ package ∧
      (Cmd.lsVersions (cask_flag_of "brew install") package).shell =
        "brew ls --versions  " ++ package ∧
      (Cmd.installPkg "brew install" (cask_flag_of "brew install") package).shell =
        "brew install  " ++ package ∧
      (runs p ex (.lsVersions (cask_flag_of "brew install --cask") package) = false →
        (_install p ex "brew install --cask" (package :: rest)).1.cmds.take 2 =
          [.lsVersions "--cask" package,
            .installPkg "brew install --cask" "--cask" package]) := by
  have hcask : cask_flag_of "brew install --cask" = "--cask" := rfl
  have hform : cask_flag_of "brew install" = "" := rfl
  refine ⟨?_, ?_, ?_, ?_, ?_⟩
  · rw [hcask]
    show "brew ls --versions " ++ "--cask" ++ " " ++ package = _
    rw [show ("brew ls --versions " ++ "--cask" ++ " " : String) =
      "brew ls --versions --cask " from by decide]
  · rw [hcask]
    show "brew install --cask" ++ " " ++ "--cask" ++ " " ++ package = _
    rw [show ("brew install --cask" ++ " " ++ "--cask" ++ " " : String) =
      "brew install --cask --cask " from by decide]
  · rw [hform]
    show "brew ls --versions " ++ "" ++ " " ++ package = _
    rw [show ("brew ls --versions " ++ "" ++ " " : String) =
      "brew ls --versions  " from by decide]
  · rw [hform]
    show "brew install" ++ " " ++ "" ++ " " ++ package = _
    rw [show ("brew install" ++ " " ++ "" ++ " " : String) = "brew install  " from
      by decide]
  · intro hls
    rcases hin : runs p ex (.installPkg "brew install --cask" "--cask" package) with
      hv | hv
    · rw [show _install p ex "brew install --cask" (package :: rest) =
        _install_loop p ex "brew install --cask" "--cask" (package :: rest) from rfl,
        install_loop_cons_fail p ex "brew install --cask" "--cask" package rest
          (by exact hls) hin]
      rfl
    · rw [show _install p ex "brew install --cask" (package :: rest) =
        _install_loop p ex "brew install --cask" "--cask" (package :: rest) from rfl,
        install_loop_cons_ok p ex "brew install --cask" "--cask" package rest
          (by exact hls) hin]
      simp [Eff.app]

/-- C2 witness: the amended theorem applied at package `p`, with the resulting
concrete command strings. -/
theorem C2_witness :
    (Cmd.installPkg "brew install --cask" (cask_flag_of "brew install --cask")
        "p").shell = "brew install --cask --cask p" ∧
      (_install .linux ex_none "brew install --cask" ["p"]).1.cmds.take 2 =
        [.lsVersions "--cask" "p", .installPkg "brew install --cask" "--cask" "p"] := by
  have h := C2_issued_commands "p" .linux ex_none []
  exact ⟨h.2.1.trans (by decide), h.2.2.2.2 rfl⟩

/-- C3: whenever environment injection is enabled, the executed shell string is
the original command prefixed by `eval "$(<env map>)" && `, where the
interpolated environment map holds exactly the six variables HOMEBREW_PREFIX,
HOMEBREW_CELLAR, HOMEBREW_REPOSITORY, PATH, MANPATH, INFOPATH with values
derived from the platform-specific base path; every command `handle` executes
other than the bootstrap install script has injection enabled. -/
theorem C3_env_injection (p : Platform) (cmd : String) (ex : Exec) (d : String)
    (data : List String) :
    cmd_string p cmd true =
        "eval \"$(" ++ dict_repr (_homebrew_envs p) ++ ")\" && " ++ cmd ∧
      (_homebrew_envs p).map Prod.fst =
        ["HOMEBREW_PREFIX", "HOMEBREW_CELLAR", "HOMEBREW_REPOSITORY", "PATH",
          "MANPATH", "INFOPATH"] ∧
      ∀ c ∈ (handle p ex d data).1.cmds, c ≠ Cmd.installScript →
        c.exec_str p = "eval \"$(" ++ dict_repr (_homebrew_envs p) ++ ")\" && " ++ c.shell := by
  refine ⟨rfl, by simp [_homebrew_envs], ?_⟩
  intro c _ hc
  cases c <;> first
    | rfl
    | exact absurd rfl hc

/-- C3 witness: the theorem applied on Linux to the `brew tap a` invocation
that `handle "tap" ["a"]` performs. -/
theorem C3_witness :
    cmd_string .linux "brew update" true =
        "eval \"$(" ++ dict_repr (_homebrew_envs .linux) ++ ")\" && " ++ "brew update" ∧
      (Cmd.tap "a").exec_str .linux =
        "eval \"$(" ++ dict_repr (_homebrew_envs .linux) ++ ")\" && " ++
          (Cmd.tap "a").shell := by
  have h := C3_env_injection .linux "brew update" ex_all "tap" ["a"]
  exact ⟨h.1, h.2.2 (Cmd.tap "a") (by decide) (by decide)⟩

/-- C4: each of `_tap`, `_install`, `_install_bundle` returns true when every
item succeeds, and on the first failing item returns false with no later item
attempted (the executed-command trace stops at the failing item). -/
theorem C4_first_failure_stops (p : Platform) (ex : Exec) (install_cmd : String) :
    (∀ l, (∀ t ∈ l, runs p ex (.tap t) = true) → (_tap p ex l).2 = true) ∧
      (∀ l, (∀ q ∈ l,
          install_item_ok p ex install_cmd (cask_flag_of install_cmd) q = true) →
        (_install p ex install_cmd l).2 = true) ∧
      (∀ l, (∀ f ∈ l, runs p ex (.bundle f) = true) →
        (_install_bundle p ex l).2 = true) ∧
      (∀ pre x post, (∀ t ∈ pre, runs p ex (.tap t) = true) →
        runs p ex (.tap x) = false →
        (_tap p ex (pre ++ x :: post)).2 = false ∧
          (_tap p ex (pre ++ x :: post)).1.cmds = pre.map Cmd.tap ++ [Cmd.tap x]) ∧
      (∀ pre x post,
        (∀ q ∈ pre,
          install_item_ok p ex install_cmd (cask_flag_of install_cmd) q = true) →
        runs p ex (.lsVersions (cask_flag_of install_cmd) x) = false →
        runs p ex (.installPkg install_cmd (cask_flag_of install_cmd) x) = false →
        (_install p ex install_cmd (pre ++ x :: post)).2 = false ∧
          (_install p ex install_cmd (pre ++ x :: post)).1.cmds =
            (pre.map
              (install_item_cmds p ex install_cmd (cask_flag_of install_cmd))).flatten ++
              [.lsVersions (cask_flag_of install_cmd) x,
                .installPkg install_cmd (cask_flag_of install_cmd) x]) ∧
      (∀ pre x post, (∀ f ∈ pre, runs p ex (.bundle f) = true) →
        runs p ex (.bundle x) = false →
        (_install_bundle p ex (pre ++ x :: post)).2 = false ∧
          (_install_bundle p ex (pre ++ x :: post)).1.cmds =
            pre.map Cmd.bundle ++ [Cmd.bundle x]) := by
  refine ⟨?_, ?_, ?_, ?_, ?_, ?_⟩
  · intro l h
    rw [tap_all_ok p ex l h]
  · intro l h
    rw [show _install p ex install_cmd l =
      _install_loop p ex install_cmd (cask_flag_of install_cmd) l from rfl,
      install_loop_all_ok p ex install_cmd (cask_flag_of install_cmd) l h]
  · intro l h
    rw [bundle_all_ok p ex l h]
  · intro pre x post hpre hx
    rw [tap_fail p ex pre x post hpre hx]
    exact ⟨rfl, rfl⟩
  · intro pre x post hpre hx1 hx2
    rw [show _install p ex install_cmd (pre ++ x :: post) =
      _install_loop p ex install_cmd (cask_flag_of install_cmd) (pre ++ x :: post)
        from rfl,
      install_loop_fail p ex install_cmd (cask_flag_of install_cmd) pre x post hpre
        hx1 hx2]
    exact ⟨rfl, rfl⟩
  · intro pre x post hpre hx
    rw [bundle_fail p ex pre x post hpre hx]
    exact ⟨rfl, rfl⟩

/-- C4 witness: the theorem applied on Linux with an oracle failing every
command: item 1 fails, so each handler returns false having attempted only
item 1; and each path returns true on lists whose items all succeed
(vacuously, the empty list). -/
theorem C4_witness :
    ((_tap .linux ex_none ["a", "b"]).2 = false ∧
        (_tap .linux ex_none ["a", "b"]).1.cmds = [Cmd.tap "a"]) ∧
      ((_install .linux ex_none "brew install" ["x", "y"]).2 = false ∧
        (_install .linux ex_none "brew install" ["x", "y"]).1.cmds =
          [Cmd.lsVersions "" "x", Cmd.installPkg "brew install" "" "x"]) ∧
      ((_install_bundle .linux ex_none ["f", "g"]).2 = false ∧
        (_install_bundle .linux ex_none ["f", "g"]).1.cmds = [Cmd.bundle "f"]) ∧
      (_tap .linux ex_none []).2 = true := by
  have h := C4_first_failure_stops .linux ex_none "brew install"
  refine ⟨?_, ?_, ?_, h.1 [] (by simp)⟩
  · have := h.2.2.2.1 [] "a" ["b"] (by simp) rfl
    simpa using this
  · have := h.2.2.2.2.1 [] "x" ["y"] (by simp) rfl rfl
    simpa using this
  · have := h.2.2.2.2.2 [] "f" ["g"] (by simp) rfl
    simpa using this

/-- C5: if the version query for a package succeeds (the package is already
installed), `_install` never issues that package's install command for any
input list, and on encountering the package it just runs the version query and
continues with the rest of the list. -/
theorem C5_installed_skipped (p : Platform) (ex : Exec) (install_cmd : String)
    (l rest : List String) (package : String)
    (h : runs p ex (.lsVersions (cask_flag_of install_cmd) package) = true) :
    Cmd.installPkg install_cmd (cask_flag_of install_cmd) package ∉
        (_install p ex install_cmd l).1.cmds ∧
      _install p ex install_cmd (package :: rest) =
        ((⟨[Cmd.lsVersions (cask_flag_of install_cmd) package],
            [⟨.lowinfo,
              (Cmd.lsVersions (cask_flag_of install_cmd) package).exec_str p⟩]⟩ :
            Eff).app (_install p ex install_cmd rest).1,
          (_install p ex install_cmd rest).2) :=
  ⟨install_loop_not_mem p ex install_cmd (cask_flag_of install_cmd) package l h,
    install_loop_cons_skip p ex install_cmd (cask_flag_of install_cmd) package rest h⟩

/-- C5 witness: the theorem applied with `git` already installed in
`["git", "curl"]`: `git`'s install command never appears in the trace. -/
theorem C5_witness :
    Cmd.installPkg "brew install" (cask_flag_of "brew install") "git" ∉
        (_install .linux ex_all "brew install" ["git", "curl"]).1.cmds ∧
      runs .linux ex_all
        (.lsVersions (cask_flag_of "brew install") "git") = true :=
  ⟨(C5_installed_skipped .linux ex_all "brew install" ["git", "curl"] ["curl"] "git"
      rfl).1, rfl⟩

/-- C6: `can_handle` accepts exactly `tap`, `brew`, `brewfile`, and - on macOS
only - `cask`; it is a pure function of the directive and the platform (no
side effects in the model). -/
theorem C6_can_handle_characterization (p : Platform) (d : String) :
    can_handle p d = true ↔
      (d = "tap" ∨ d = "brew" ∨ d = "brewfile" ∨
        (_is_macos p = true ∧ d = "cask")) :=
  can_handle_iff p d

/-- C7: `handle` raises the invalid-argument `ValueError` exactly when
`can_handle` is false, and in that case it executes no shell commands at all. -/
theorem C7_unsupported_directive (p : Platform) (ex : Exec) (d : String)
    (data : List String) :
    ((∃ m, (handle p ex d data).2 = .error (.valueError m)) ↔
        can_handle p d = false) ∧
      (can_handle p d = false →
        handle p ex d data =
          (Eff.nil, .error (.valueError ("Brew cannot handle directive " ++ d)))) := by
  rcases hc : can_handle p d with hv | hv
  · refine ⟨⟨fun _ => rfl, fun _ => ?_⟩, fun _ => handle_unsupported p ex d data hc⟩
    rw [handle_unsupported p ex d data hc]
    exact ⟨"Brew cannot handle directive " ++ d, rfl⟩
  · refine ⟨⟨fun hm => ?_, fun hf => absurd hf (by simp [hc])⟩,
      fun hf => absurd hf (by simp [hc])⟩
    rcases hm with ⟨m, hm⟩
    have := (handle_error_iff p ex d data (.valueError m) hc).mp hm
    rcases this with ⟨_, _, he⟩
    cases he

/-- C7 witness: the theorem applied to the unsupported `cask` directive on
Linux: `handle` raises the `ValueError` and executes nothing. -/
theorem C7_witness :
    handle .linux ex_all "cask" ["firefox"] =
      (Eff.nil, .error (.valueError ("Brew cannot handle directive " ++ "cask"))) :=
  (C7_unsupported_directive .linux ex_all "cask" ["firefox"]).2 (by decide)

/-- C8: when `hash brew` fails, `handle` runs the bootstrap: the install
script once, the update step only if the script succeeded; both failures are
logged as warnings, the bootstrap cannot raise (its type has no error case),
and `handle` then still executes the post-bootstrap commands and returns
whatever they produce, regardless of the bootstrap outcome. -/
theorem C8_bootstrap_best_effort (p : Platform) (ex : Exec) (d : String)
    (data : List String) (h : can_handle p d = true)
    (hb : runs p ex .hashBrew = false) :
    (handle p ex d data).2 = (post_check p ex d data).2 ∧
      (handle p ex d data).1.cmds =
        .hashBrew :: ((_bootstrap_brew p ex).cmds ++ (post_check p ex d data).1.cmds) ∧
      (_bootstrap_brew p ex).cmds =
        (if runs p ex .installScript then [.installScript, .update]
          else [.installScript]) ∧
      (_bootstrap_brew p ex).cmds.count .installScript = 1 ∧
      (runs p ex .installScript = false →
        (⟨.warning, "Brew could not be installed"⟩ : LogEntry) ∈
          (_bootstrap_brew p ex).log) ∧
      (runs p ex .installScript = true → runs p ex .update = false →
        (⟨.warning, "Brew could not be updated"⟩ : LogEntry) ∈
          (_bootstrap_brew p ex).log) := by
  refine ⟨?_, ?_, bootstrap_cmds p ex, ?_, ?_, ?_⟩
  · rw [handle_supported p ex d data h]
  · rw [handle_supported p ex d data h]
    simp [hb, Eff.app, logE, run_shell]
  · rw [bootstrap_cmds p ex]
    rcases hs : runs p ex .installScript with hv | hv <;> simp
  · intro hs
    rw [bootstrap_fail p ex hs]
    simp
  · intro hs hu
    rw [bootstrap_ok p ex hs]
    simp [hu]

/-- C8 witness: the theorem applied on Linux with every subprocess failing:
the install script runs once, no update is attempted, the failure is logged
as a warning, and `handle` still reaches the directive's own path. -/
theorem C8_witness :
    (handle .linux ex_none "tap" ["a"]).1.cmds =
        .hashBrew :: ((_bootstrap_brew .linux ex_none).cmds ++
          (post_check .linux ex_none "tap" ["a"]).1.cmds) ∧
      (_bootstrap_brew .linux ex_none).cmds = [.installScript] ∧
      (⟨.warning, "Brew could not be installed"⟩ : LogEntry) ∈
        (_bootstrap_brew .linux ex_none).log := by
  have h := C8_bootstrap_best_effort .linux ex_none "tap" ["a"] (by decide) rfl
  exact ⟨h.2.1, h.2.2.1, h.2.2.2.2.1 rfl⟩

/-- C9 counterexample: with both taps failing, `_tap ["a", "b"]` stops after
tap `a`: tap `b` is never attempted, contradicting the claim that the tap and
bundle-file paths attempt all items; `_install_bundle` behaves the same. -/
theorem C9_counterexample :
    (_tap .linux ex_none ["a", "b"]).2 = false ∧
      (_tap .linux ex_none ["a", "b"]).1.cmds = [Cmd.tap "a"] ∧
      Cmd.tap "b" ∉ (_tap .linux ex_none ["a", "b"]).1.cmds ∧
      (_install_bundle .linux ex_none ["f", "g"]).1.cmds = [Cmd.bundle "f"] := by
  refine ⟨rfl, rfl, by decide, rfl⟩

/-- C9 (amended): there is no asymmetry - all three paths (`_tap`,
`_install`, `_install_bundle`) abort the remaining list on the first failing
item and return false immediately, with a warning logged for the failing
item. -/
theorem C9_asymmetry_corrected (p : Platform) (ex : Exec) (install_cmd : String)
    (pre : List String) (x : String) (post : List String) :
    ((∀ t ∈ pre, runs p ex (.tap t) = true) → runs p ex (.tap x) = false →
      _tap p ex (pre ++ x :: post) =
        (⟨pre.map Cmd.tap ++ [Cmd.tap x],
          (pre.map (tap_item_log p)).flatten ++ tap_item_log p x ++
            [tap_fail_log p x]⟩, false)) ∧
    ((∀ q ∈ pre,
        install_item_ok p ex install_cmd (cask_flag_of install_cmd) q = true) →
      runs p ex (.lsVersions (cask_flag_of install_cmd) x) = false →
      runs p ex (.installPkg install_cmd (cask_flag_of install_cmd) x) = false →
      _install p ex install_cmd (pre ++ x :: post) =
        (⟨(pre.map
            (install_item_cmds p ex install_cmd (cask_flag_of install_cmd))).flatten ++
            [.lsVersions (cask_flag_of install_cmd) x,
              .installPkg install_cmd (cask_flag_of install_cmd) x],
          (pre.map
            (install_item_log p ex install_cmd (cask_flag_of install_cmd))).flatten ++
            install_item_log p ex install_cmd (cask_flag_of install_cmd) x ++
            [install_fail_log p install_cmd (cask_flag_of install_cmd) x]⟩, false)) ∧
    ((∀ f ∈ pre, runs p ex (.bundle f) = true) → runs p ex (.bundle x) = false →
      _install_bundle p ex (pre ++ x :: post) =
        (⟨pre.map Cmd.bundle ++ [Cmd.bundle x],
          (pre.map (bundle_item_log p)).flatten ++ bundle_item_log p x ++
            [bundle_fail_log p x]⟩, false)) := by
  refine ⟨fun hpre hx => tap_fail p ex pre x post hpre hx,
    fun hpre hx1 hx2 => ?_,
    fun hpre hx => bundle_fail p ex pre x post hpre hx⟩
  rw [show _install p ex install_cmd (pre ++ x :: post) =
    _install_loop p ex install_cmd (cask_flag_of install_cmd) (pre ++ x :: post)
      from rfl]
  exact install_loop_fail p ex install_cmd (cask_flag_of install_cmd) pre x post
    hpre hx1 hx2

/-- C9 witness: the amended theorem applied with tap `a` succeeding and tap
`b` failing: tap `c` is never attempted and the result is false. -/
theorem C9_witness :
    _tap .linux ex_tap_a (["a"] ++ "b" :: ["c"]) =
      (⟨[Cmd.tap "a", Cmd.tap "b"],
        tap_item_log .linux "a" ++ tap_item_log .linux "b" ++
          [tap_fail_log .linux "b"]⟩, false) := by
  have h := (C9_asymmetry_corrected .linux ex_tap_a "brew install" ["a"] "b"
    ["c"]).1 (by intro t ht; simp at ht; subst ht; rfl) rfl
  simpa using h

/-- C10 counterexample: `handle` with the supported `brew` directive and empty
data does not report success when the unguarded macOS preliminary tap step
fails: it propagates the `CalledProcessError` instead. -/
theorem C10_counterexample :
    (handle (.darwin false) ex_none "brew" []).2 =
      .error (.calledProcessError (Cmd.tapCask.exec_str (.darwin false))) := rfl

/-- C10 (amended): each per-directive handler on the empty list executes no
per-item command and returns true, so `handle` with a supported directive and
empty data returns overall success - provided the preliminary macOS tap step
does not fail (unconditionally on the non-macOS platform). -/
theorem C10_empty_data (p : Platform) (ex : Exec) (install_cmd d : String) :
    _tap p ex [] = (Eff.nil, true) ∧
      _install p ex install_cmd [] = (Eff.nil, true) ∧
      _install_bundle p ex [] = (Eff.nil, true) ∧
      (can_handle p d = true → (_is_macos p = true → runs p ex .tapCask = true) →
        (handle p ex d []).2 = .ok (some true)) := by
  refine ⟨rfl, rfl, rfl, ?_⟩
  intro h hm
  rw [handle_supported p ex d [] h]
  show (post_check p ex d []).2 = .ok (some true)
  have hdisp : (dispatch p ex d []).2 = some true := by
    rcases (can_handle_iff p d).mp h with rfl | rfl | rfl | ⟨hmac, rfl⟩ <;>
      simp [dispatch, _process_data, _install, _install_loop, _tap, _install_bundle,
        _tap_directive, _brew_directive, _brewfile_directive, _cask_directive,
        show (("brew" : String) == "tap") = false from by decide,
        show (("brewfile" : String) == "tap") = false from by decide,
        show (("brewfile" : String) == "brew") = false from by decide,
        show (("cask" : String) == "tap") = false from by decide,
        show (("cask" : String) == "brew") = false from by decide]
  rcases hmach : _is_macos p with hv | hv
  · rw [post_check_linux p ex d [] hmach, hdisp]
  · rw [post_check_macos_ok p ex d [] hmach (hm hmach), hdisp]

/-- C10 witness: the amended theorem applied on Linux with every subprocess
failing: the handlers accept the empty list vacuously and
`handle "brewfile" []` still reports success. -/
theorem C10_witness :
    _tap .linux ex_none [] = (Eff.nil, true) ∧
      (handle .linux ex_none "brewfile" []).2 = .ok (some true) := by
  have h := C10_empty_data .linux ex_none "brew install" "brewfile"
  exact ⟨h.1, h.2.2.2 (by decide) (by intro hc; cases hc)⟩

end DotbotBrew
